import Mathlib

/-!
Verification of the droplet autoscaler core against its specification.

The Go sources are shallowly embedded: pure fragments become Lean functions,
stateful operations become explicit state passing, provider and library calls
(HTTP SDK, Vault, YAML parsing, clocks, contexts) become explicit parameters
holding the observed responses.  Go map iteration order is unspecified; the
embedding fixes the insertion order of the corresponding association list —
none of the proved properties depend on that order.  A Go panic (such as an
out-of-range slice index) is modelled as the value `none`.
-/

namespace DOPlugin

/-- Model of a Go `error` value: `errors.New` / `fmt.Errorf` without a verb,
`fmt.Errorf` with a `%w` verb (wrapping), and `errors.Join` of one or two
non-nil errors.  `Option GoError` stands for a possibly-nil Go error. -/
inductive GoError where
  | msg (s : String)
  | wrap (s : String) (inner : GoError)
  | join2 (a b : GoError)
  | join1 (a : GoError)
deriving DecidableEq, Repr

/-- The error chain walked by `errors.Is`: the error itself and everything
reachable through unwrapping. -/
def GoError.chain : GoError → List GoError
  | .msg s => [.msg s]
  | .wrap s e => .wrap s e :: e.chain
  | .join2 a b => .join2 a b :: (a.chain ++ b.chain)
  | .join1 a => .join1 a :: a.chain

/-- `errors.Join(a, b)` where `a` is non-nil and `b` may be nil. -/
def goJoin (a : GoError) (b : Option GoError) : GoError :=
  match b with
  | some e => .join2 a e
  | none => .join1 a

/-- Embeds the loop body of `retry` (retry.go).  `f i` is the result of the
iteration-`i` call of the retried function, `ctxErr i` is what `ctx.Err()`
returns when checked right after that call (cancellation by the context or by
the cancel-cause handle handed to `f`).  `fuel` bounds the recursion; `none`
means the fuel ran out before the Go loop terminated. -/
def retryAux (f ctxErr : Nat → Option GoError) (retryAttempts : Nat) :
    Nat → Nat → Option GoError → Nat → Option (Option GoError)
  | _, _, _, 0 => none
  | i, retryCount, lastErr, fuel + 1 =>
    match f i with
    | none => some none
    | some err =>
      match ctxErr i with
      | some cerr =>
        some (some (.wrap
          ("giving up after " ++ toString retryCount ++
            " retries as the context is cancelled")
          (goJoin cerr lastErr)))
      | none =>
        if retryCount + 1 = retryAttempts then
          some (some (.msg "reached retry limit"))
        else
          retryAux f ctxErr retryAttempts (i + 1) (retryCount + 1) (some err) fuel

/-- Embeds `retry` (retry.go): the entry pre-check of `ctx.Err()` followed by
the retry loop.  The ticker timing is irrelevant to the returned value and is
not modelled. -/
def retry (entryErr : Option GoError) (f ctxErr : Nat → Option GoError)
    (retryAttempts fuel : Nat) : Option (Option GoError) :=
  match entryErr with
  | some e => some (some e)
  | none => retryAux f ctxErr retryAttempts 0 0 none fuel

/-- State of the token-bucket rate limiter (ratelimiter source file): integer
burst, current token count, recharge period and the absolute time of the next
recharge check.  Times and durations are integers (Go nanoseconds; the claims
use seconds for readability). -/
structure RateLimiter where
  burst : Nat
  current : Nat
  rechargePeriod : Int
  nextCheck : Int
deriving DecidableEq, Repr

/-- Embeds `NewRateLimiter`: `current = burst` when starting full, and
`nextCheck` one recharge period after the creation instant (`WithMockClock`
re-derives it the same way from the mock clock). -/
def NewRateLimiter (burst : Nat) (rechargePeriod : Int) (startFull : Bool)
    (now : Int) : RateLimiter :=
  { burst := burst
    current := if startFull then burst else 0
    rechargePeriod := rechargePeriod
    nextCheck := now + rechargePeriod }

/-- Embeds the recharge loop at the top of `Consume`: while the bucket is not
full and `nextCheck` is not in the future, add one token and push `nextCheck`
one period later; a full bucket resets `nextCheck` to one period from now.
The loop runs at most `burst + 1 - current` iterations, which the fuel
argument (always instantiated with `burst + 1`) bounds. -/
def rechargeAux (burst : Nat) (rechargePeriod now : Int) :
    Nat → Nat → Int → Nat × Int
  | 0, current, nextCheck => (current, nextCheck)
  | fuel + 1, current, nextCheck =>
    if current = burst then (current, now + rechargePeriod)
    else if now < nextCheck then (current, nextCheck)
    else rechargeAux burst rechargePeriod now fuel (current + 1) (nextCheck + rechargePeriod)

/-- An outcome of `Consume`: returned at once, returned after blocking until
the absolute time `t` at which the awaited token arrives, or returned because
the context was cancelled during the wait. -/
inductive ConsumeOutcome where
  | immediate
  | waitedUntil (t : Int)
  | cancelled
deriving DecidableEq, Repr

/-- Embeds `Consume`: recharge, then either take an available token and
return, or block on a timer for the next token.  `cancelledDuringWait` tells
whether the context is cancelled before that timer fires; per the source, a
cancelled wait returns without consuming a token and without advancing
`nextCheck`. -/
def RateLimiter.Consume (r : RateLimiter) (now : Int)
    (cancelledDuringWait : Bool) : ConsumeOutcome × RateLimiter :=
  let cn := rechargeAux r.burst r.rechargePeriod now (r.burst + 1) r.current r.nextCheck
  if 0 < cn.1 then
    (.immediate, { r with current := cn.1 - 1, nextCheck := cn.2 })
  else if cancelledDuringWait then
    (.cancelled, { r with current := cn.1, nextCheck := cn.2 })
  else
    (.waitedUntil cn.2,
      { r with current := cn.1, nextCheck := cn.2 + r.rechargePeriod })

/-- A provider reserved IPv4 address record (`godo.ReservedIP`): the address
and the droplet it is assigned to, when any. -/
structure ReservedIP where
  ip : String
  droplet : Option Int
deriving DecidableEq, Repr

/-- A provider reserved IPv6 address record (`godo.ReservedIPV6`). -/
structure ReservedIPV6 where
  ip : String
  droplet : Option Int
deriving DecidableEq, Repr

/-- An in-memory pre-reservation of an IPv4 address (utils.go `PrereservedIP`). -/
structure PrereservedIP where
  expiryTime : Int
  reservedIP : ReservedIP
deriving DecidableEq, Repr

/-- An in-memory pre-reservation of an IPv6 address (utils.go `PrereservedIPV6`). -/
structure PrereservedIPV6 where
  expiryTime : Int
  reservedIP : ReservedIPV6
deriving DecidableEq, Repr

/-- Association-list model of a Go `map[string]V`: insert or overwrite. -/
def insertA {V : Type} (k : String) (v : V) : List (String × V) → List (String × V)
  | [] => [(k, v)]
  | (k1, v1) :: rest => if k1 = k then (k, v) :: rest else (k1, v1) :: insertA k v rest

/-- Association-list model of a Go map read: the value stored at `k`. -/
def lookupA {V : Type} (k : String) : List (String × V) → Option V
  | [] => none
  | (k1, v1) :: rest => if k1 = k then some v1 else lookupA k rest

/-- Association-list model of Go `delete(m, k)`. -/
def eraseA {V : Type} (k : String) (m : List (String × V)) : List (String × V) :=
  m.filter (fun kv => kv.1 ≠ k)

/-- The keys of an association-list map. -/
def keysOf {V : Type} (m : List (String × V)) : List String :=
  m.map (fun kv => kv.1)

/-- Embeds `getReservedIPs` (utils.go): index the listed reserved addresses by
their IP string. -/
def buildReservedMapV4 (ips : List ReservedIP) : List (String × ReservedIP) :=
  ips.foldl (fun m ip => insertA ip.ip ip m) []

/-- Embeds `getReservedIPV6s` (utils.go). -/
def buildReservedMapV6 (ips : List ReservedIPV6) : List (String × ReservedIPV6) :=
  ips.foldl (fun m ip => insertA ip.ip ip m) []

/-- The pre-reservation test inside the scan loop of `PrereserveIPs`
(utils.go): an address passes when it is not in the pre-reservation map or
when its pre-reservation has expired (`clock.Now().After(expiryTime)`, a
strict comparison). -/
def notPrereservedV4 (pool : List (String × PrereservedIP)) (now : Int)
    (ip : String) : Bool :=
  match lookupA ip pool with
  | none => true
  | some p => decide (p.expiryTime < now)

/-- The pre-reservation test inside the scan loop of `PrereserveIPV6s`. -/
def notPrereservedV6 (pool : List (String × PrereservedIPV6)) (now : Int)
    (ip : String) : Bool :=
  match lookupA ip pool with
  | none => true
  | some p => decide (p.expiryTime < now)

/-- Embeds the scan loop of `PrereserveIPs` (utils.go, the loop over the
listed reservations): admit an unassigned address that passes
`notPrereservedV4` and stop as soon as `count` addresses are admitted. -/
def scanReservedIPs (pool : List (String × PrereservedIP)) (now : Int)
    (count : Nat) :
    List ReservedIP → List (String × ReservedIP) → List (String × ReservedIP)
  | [], addresses => addresses
  | r :: rest, addresses =>
    if r.droplet = none then
      if notPrereservedV4 pool now r.ip then
        let addresses1 := insertA r.ip r addresses
        if addresses1.length = count then addresses1
        else scanReservedIPs pool now count rest addresses1
      else scanReservedIPs pool now count rest addresses
    else scanReservedIPs pool now count rest addresses

/-- Embeds the scan loop of `PrereserveIPV6s`. -/
def scanReservedIPV6s (pool : List (String × PrereservedIPV6)) (now : Int)
    (count : Nat) :
    List ReservedIPV6 → List (String × ReservedIPV6) → List (String × ReservedIPV6)
  | [], addresses => addresses
  | r :: rest, addresses =>
    if r.droplet = none then
      if notPrereservedV6 pool now r.ip then
        let addresses1 := insertA r.ip r addresses
        if addresses1.length = count then addresses1
        else scanReservedIPV6s pool now count rest addresses1
      else scanReservedIPV6s pool now count rest addresses
    else scanReservedIPV6s pool now count rest addresses

/-- Embeds the creation loop of `PrereserveIPs`: while short of `count`, a
call of the provider `Create` (its successive results are the `creates`
list) admits the created address, a creation error fails the call, and
`createIfRequired = false` fails with insufficient addresses.  `none` models
running past the supplied provider responses. -/
def createReservedIPs (count : Nat) (region : String) (createIfRequired : Bool) :
    List (Except String ReservedIP) → List (String × ReservedIP) →
    Option (Except String (List (String × ReservedIP)))
  | creates, addresses =>
    if addresses.length = count then some (.ok addresses)
    else if createIfRequired then
      match creates with
      | [] => none
      | .error e :: _ =>
        some (.error ("cannot create a new IPv4 address for region " ++ region ++ ": " ++ e))
      | .ok r :: rest =>
        createReservedIPs count region createIfRequired rest (insertA r.ip r addresses)
    else some (.error "insufficient reserved IPv4 addresses")

/-- Embeds the creation loop of `PrereserveIPV6s`.  The insufficient-address
message matches the source, which reuses the IPv4 wording. -/
def createReservedIPV6s (count : Nat) (region : String) (createIfRequired : Bool) :
    List (Except String ReservedIPV6) → List (String × ReservedIPV6) →
    Option (Except String (List (String × ReservedIPV6)))
  | creates, addresses =>
    if addresses.length = count then some (.ok addresses)
    else if createIfRequired then
      match creates with
      | [] => none
      | .error e :: _ =>
        some (.error ("cannot create a new IPv6 address for region " ++ region ++ ": " ++ e))
      | .ok r :: rest =>
        createReservedIPV6s count region createIfRequired rest (insertA r.ip r addresses)
    else some (.error "insufficient reserved IPv4 addresses")

/-- Embeds the recording step of `PrereserveIPs`: every admitted address is
written to the pre-reservation map with expiry `now + expiry`. -/
def recordPrereservationsV4 (now expiry : Int)
    (addresses : List (String × ReservedIP))
    (pool : List (String × PrereservedIP)) : List (String × PrereservedIP) :=
  addresses.foldl (fun m kv => insertA kv.1 ⟨now + expiry, kv.2⟩ m) pool

/-- Embeds the recording step of `PrereserveIPV6s`. -/
def recordPrereservationsV6 (now expiry : Int)
    (addresses : List (String × ReservedIPV6))
    (pool : List (String × PrereservedIPV6)) : List (String × PrereservedIPV6) :=
  addresses.foldl (fun m kv => insertA kv.1 ⟨now + expiry, kv.2⟩ m) pool

/-- Embeds `PrereserveIPs` (utils.go).  `pool` is the pre-reservation map
before the call, `now` the clock reading, `listResult` the provider listing
response and `creates` the successive provider `Create` responses.  Returns
the call outcome paired with the pre-reservation map after the call, or
`none` when the creation loop runs past the supplied responses. -/
def PrereserveIPs (pool : List (String × PrereservedIP)) (now : Int)
    (listResult : Except String (List ReservedIP))
    (creates : List (Except String ReservedIP))
    (count : Nat) (region : String) (createIfRequired : Bool) (expiry : Int) :
    Option (Except String (List String) × List (String × PrereservedIP)) :=
  match listResult with
  | .error e => some (.error ("cannot enumerate reserved IPs: " ++ e), pool)
  | .ok ips =>
    match
      createReservedIPs count region createIfRequired creates
        (scanReservedIPs pool now count ((buildReservedMapV4 ips).map (fun kv => kv.2)) []) with
    | none => none
    | some (.error e) => some (.error e, pool)
    | some (.ok addresses) =>
      some (.ok (addresses.map (fun kv => kv.1)),
        recordPrereservationsV4 now expiry addresses pool)

/-- Embeds `PrereserveIPV6s` (utils.go). -/
def PrereserveIPV6s (pool : List (String × PrereservedIPV6)) (now : Int)
    (listResult : Except String (List ReservedIPV6))
    (creates : List (Except String ReservedIPV6))
    (count : Nat) (region : String) (createIfRequired : Bool) (expiry : Int) :
    Option (Except String (List String) × List (String × PrereservedIPV6)) :=
  match listResult with
  | .error e => some (.error ("cannot enumerate reserved IPV6s: " ++ e), pool)
  | .ok ips =>
    match
      createReservedIPV6s count region createIfRequired creates
        (scanReservedIPV6s pool now count ((buildReservedMapV6 ips).map (fun kv => kv.2)) []) with
    | none => none
    | some (.error e) => some (.error e, pool)
    | some (.ok addresses) =>
      some (.ok (addresses.map (fun kv => kv.1)),
        recordPrereservationsV6 now expiry addresses pool)

/-- Embeds `AssignIPv4` (utils.go): an absent or expired pre-reservation
fails with the not-prereserved error and leaves the map alone; otherwise the
pre-reservation is deleted on exit (a deferred delete, so on both the success
and the failure path of the provider Assign action, whose retried outcome is
the `assignResult` parameter). -/
def AssignIPv4 (pool : List (String × PrereservedIP)) (now : Int)
    (assignResult : Except String Unit) (dropletID : Int) (ipv4 : String) :
    Except String Unit × List (String × PrereservedIP) :=
  match lookupA ipv4 pool with
  | none => (.error "trying to assign a IPv4 address which was not prereserved", pool)
  | some p =>
    if p.expiryTime < now then
      (.error "trying to assign a IPv4 address which was not prereserved", pool)
    else
      match assignResult with
      | .error e =>
        (.error ("cannot assign IPv4 " ++ ipv4 ++ " to droplet " ++ toString dropletID ++ ": " ++ e),
          eraseA ipv4 pool)
      | .ok _ => (.ok (), eraseA ipv4 pool)

/-- Embeds `AssignIPv6` (utils.go). -/
def AssignIPv6 (pool : List (String × PrereservedIPV6)) (now : Int)
    (assignResult : Except String Unit) (dropletID : Int) (ipv6 : String) :
    Except String Unit × List (String × PrereservedIPV6) :=
  match lookupA ipv6 pool with
  | none =>
    (.error ("trying to assign a IPv6 address (" ++ ipv6 ++ ") which was not prereserved"), pool)
  | some p =>
    if p.expiryTime < now then
      (.error ("trying to assign a IPv6 address (" ++ ipv6 ++ ") which was not prereserved"), pool)
    else
      match assignResult with
      | .error e =>
        (.error ("cannot assign IPv6 " ++ ipv6 ++ " to droplet " ++ toString dropletID ++ ": " ++ e),
          eraseA ipv6 pool)
      | .ok _ => (.ok (), eraseA ipv6 pool)

/-- The rate limiter of scenario S6: burst 2, recharge period 5 seconds,
starting full, created at time 0. -/
def rlS0 : RateLimiter := NewRateLimiter 2 5 true 0

/-- First `Consume` of scenario S6, at time 0. -/
def rlC1 : ConsumeOutcome × RateLimiter := rlS0.Consume 0 false

/-- Second `Consume` of scenario S6, at time 0. -/
def rlC2 : ConsumeOutcome × RateLimiter := rlC1.2.Consume 0 false

/-- Third `Consume` of scenario S6, at time 0 (it blocks until time 5). -/
def rlC3 : ConsumeOutcome × RateLimiter := rlC2.2.Consume 0 false

/-- Fourth `Consume` of scenario S6, 8 seconds after the third returned. -/
def rlC4 : ConsumeOutcome × RateLimiter := rlC3.2.Consume 13 false

/-- Fifth `Consume` of scenario S6, at time 13 (it blocks until time 15). -/
def rlC5 : ConsumeOutcome × RateLimiter := rlC4.2.Consume 13 false

/-- Embeds the pre-reservation step of `scaleOut` (digitalocean.go): the
`prereservedIPV4s` slice is populated only when IPv4 reservation is enabled
and the `prereservedIPV6s` slice only when IPv6 reservation is enabled; an
unpopulated slice stays nil (the empty list). -/
def scaleOutPrereservedLists (reserveIPv4Addresses reserveIPv6Addresses : Bool)
    (prereserveV4Result prereserveV6Result : List String) : List String × List String :=
  (if reserveIPv4Addresses then prereserveV4Result else [],
    if reserveIPv6Addresses then prereserveV6Result else [])

/-- Embeds the allowed-address selection in the secure-introduction branch of
each `scaleOut` worker task (digitalocean.go): `allowedIPv4` is set from
`prereservedIPV4s[i]` under the `reserveIPv4Addresses` guard, and — exactly
as in the source — `allowedIPv6` is set from `prereservedIPV6s[i]` under a
second `reserveIPv4Addresses` guard (not `reserveIPv6Addresses`).  `none`
models the Go panic on an out-of-range slice index. -/
def scaleOutAllowedIPs (reserveIPv4Addresses reserveIPv6Addresses : Bool)
    (prereservedIPV4s prereservedIPV6s : List String) (i : Nat) :
    Option (String × String) :=
  match (if reserveIPv4Addresses then prereservedIPV4s[i]? else some ""),
      (if reserveIPv4Addresses then prereservedIPV6s[i]? else some "") with
  | some allowedIPv4, some allowedIPv6 => some (allowedIPv4, allowedIPv6)
  | _, _ => none

/-- One `{type, content}` part of a cloud-config-archive (cloudinit.go). -/
structure CloudConfigPart where
  type : String
  content : String
deriving DecidableEq, Repr

/-- An ordered cloud-config-archive (cloudinit.go). -/
structure CloudConfigArchive where
  parts : List CloudConfigPart
deriving DecidableEq, Repr

/-- The character class of `unicode.IsSpace`, used by `strings.TrimSpace`:
the ASCII spaces, NEL, NBSP and the Unicode White_Space code points. -/
def isUnicodeSpace (c : Char) : Bool :=
  decide (c = '\t' ∨ c = '\n' ∨ c = '\x0b' ∨ c = '\x0c' ∨ c = '\r' ∨ c = ' ' ∨
    c = '\x85' ∨ c = '\xa0' ∨ c = '\u1680' ∨
    ('\u2000' ≤ c ∧ c ≤ '\u200a') ∨ c = '\u2028' ∨ c = '\u2029' ∨
    c = '\u202f' ∨ c = '\u205f' ∨ c = '\u3000')

/-- Model of the Go `strings.TrimSpace` applied to the user data: drop
`unicode.IsSpace` characters from both ends. -/
def goTrimSpace (s : String) : String :=
  String.mk (((s.data.dropWhile isUnicodeSpace).reverse.dropWhile
    isUnicodeSpace).reverse)

/-- Model of `strings.HasPrefix`. -/
def goStartsWith (s pre : String) : Bool :=
  pre.data.isPrefixOf s.data

/-- Splits a character list into its newline-separated lines. -/
def splitLinesAux : List Char → List Char → List (List Char)
  | [], acc => [acc.reverse]
  | c :: rest, acc =>
    if c = '\n' then acc.reverse :: splitLinesAux rest [] else splitLinesAux rest (c :: acc)

/-- The character class of the `\s` escape in a Go regular expression:
`[\t\n\f\r ]`. -/
def isRegexpSpace (c : Char) : Bool :=
  decide (c = '\t' ∨ c = '\n' ∨ c = '\x0c' ∨ c = '\r' ∨ c = ' ')

/-- Collapses every maximal run of consecutive whitespace-only line segments
into a single empty segment.  `prevBlank` tells whether the previous segment
belonged to such a run (so the run already produced its empty segment). -/
def collapseBlankRunsAux (prevBlank : Bool) : List (List Char) → List (List Char)
  | [] => []
  | line :: rest =>
    if line.all isRegexpSpace then
      if prevBlank then collapseBlankRunsAux true rest
      else [] :: collapseBlankRunsAux true rest
    else line :: collapseBlankRunsAux false rest

/-- Model of the `(?m)^\s*$` erasure in the archive serializer.  Because the
greedy `\s*` also matches newlines, one leftmost match spans a whole run of
consecutive whitespace-only lines and ends just before the final newline of
the run (or at the end of the text), so each maximal run of whitespace-only
lines collapses into a single empty line — not one empty line apiece. -/
def stripBlankLines (s : String) : String :=
  String.mk (List.intercalate ['\n']
    (collapseBlankRunsAux false (splitLinesAux s.data [])))

/-- Model of `strings.TrimRight(s, "\n")`. -/
def trimRightNewlines (s : String) : String :=
  String.mk ((s.data.reverse.dropWhile (fun c => c = '\n')).reverse)

/-- Model of `strings.ReplaceAll(content, "\n", "\n    ")`: indent every
line after a newline by four spaces. -/
def indentAfterNewlines : List Char → List Char
  | [] => []
  | c :: rest =>
    if c = '\n' then '\n' :: ' ' :: ' ' :: ' ' :: ' ' :: indentAfterNewlines rest
    else c :: indentAfterNewlines rest

/-- One part of the archive serializer output: the type line, then the
content block indented by four spaces under `content: |`, with
whitespace-only lines blanked and trailing newlines collapsed to one. -/
def renderPart (p : CloudConfigPart) : String :=
  "- type: " ++ p.type ++ "\n" ++
    trimRightNewlines (stripBlankLines
      (String.mk ("  content: |\n    ".data ++ indentAfterNewlines p.content.data ++ ['\n']))) ++
    "\n"

/-- Embeds the `String` serializer of `CloudConfigArchive` (cloudinit.go). -/
def CloudConfigArchive.render (c : CloudConfigArchive) : String :=
  "#cloud-config-archive\n" ++ String.join (c.parts.map renderPart)

/-- Model of `strings.SplitN(s, "\n", 2)[1]`: everything after the first
newline; the empty string when there is none (unreachable under the guard
that the input starts with the archive header line). -/
def splitN2after (s : String) : String :=
  match s.data.dropWhile (fun c => ¬ c = '\n') with
  | [] => ""
  | _ :: tail => String.mk tail

/-- Embeds `PrependShellScriptToUserData` (cloudinit.go, the
cloud-config-archive implementation).  The YAML parse that
`ParseCloudConfigArchive` delegates to the external go-yaml library is the
`parseCCA` parameter, returning the parsed parts of the archive body. -/
def PrependShellScriptToUserData (parseCCA : String → Except String (List CloudConfigPart))
    (originalUserData script : String) : Except String String :=
  let orig := goTrimSpace originalUserData
  if orig = "" then .ok (CloudConfigArchive.render ⟨[⟨"text/x-shellscript", script⟩]⟩)
  else if goStartsWith orig "Content-Type:" then .error "MIME multipart is not supported"
  else if goStartsWith orig "#!" then
    .ok (CloudConfigArchive.render
      ⟨[⟨"text/x-shellscript", script⟩, ⟨"text/x-shellscript", orig⟩]⟩)
  else if goStartsWith orig "#cloud-config-archive\n" then
    match parseCCA (splitN2after orig) with
    | .error e => .error ("unable to parse original cloud-config-archive: " ++ e)
    | .ok origParts =>
      .ok (CloudConfigArchive.render ⟨⟨"text/x-shellscript", script⟩ :: origParts⟩)
  else .error "unrecognised user data format"

/-- A provider droplet as seen by the orphan sweeper: identifier, tags and
creation time. -/
structure Droplet where
  id : Nat
  tags : List String
  created : Int
deriving DecidableEq, Repr

/-- Modelled from the spec: `deleteOrphanedDroplets` itself is not among the
source files (only its test, `TestDeleteDropletsWhenFailedToJoinNomadCluster`,
is).  Per the orphan-sweeper paragraph of the spec, the sweeper walks the
workers matching the template name and deletes exactly those that are both
older than the init grace period and absent from the whitelist; this function
returns the deleted droplets. -/
def deleteOrphanedDroplets (droplets : List Droplet) (templateName : String)
    (whitelist : List Nat) (now gracePeriod : Int) : List Droplet :=
  (droplets.filter (fun d => d.tags.contains templateName)).filter
    (fun d => decide (gracePeriod < now - d.created) && !(whitelist.contains d.id))

/-- The tag alphabet of the sanitizer regex in `GenerateSecretId` (the vault
proxy source): `[a-zA-Z0-9_\-\:]`. -/
def isAllowedTagChar (c : Char) : Bool :=
  decide ((c ≥ 'a' ∧ c ≤ 'z') ∨ (c ≥ 'A' ∧ c ≤ 'Z') ∨ (c ≥ '0' ∧ c ≤ '9') ∨
    c = '_' ∨ c = '-' ∨ c = ':')

/-- Embeds the replacement that
`ReplaceAllLiteralString` performs for the pattern `[^a-zA-Z0-9_\-\:]+`:
each maximal nonempty run of characters outside the tag alphabet becomes a
single underscore.  `prevDisallowed` tells whether the previous character
belonged to such a run (so the run already produced its underscore). -/
def collapseRunsAux (prevDisallowed : Bool) : List Char → List Char
  | [] => []
  | c :: rest =>
    if isAllowedTagChar c then c :: collapseRunsAux false rest
    else if prevDisallowed then collapseRunsAux true rest
    else '_' :: collapseRunsAux true rest

/-- The run-collapsing replacement applied to a whole character list. -/
def collapseRuns (l : List Char) : List Char :=
  collapseRunsAux false l

/-- The sanitizer applied to the mock wrapped token. -/
def sanitizeForTag (s : String) : String := String.mk (collapseRuns s.data)

/-- Embeds `GenerateSecretId` (the vault proxy source).  The response of the
real Vault client on the non-mock path is the `vaultResult` parameter. -/
def GenerateSecretId (vaultResult : Except String String)
    (appRole allowedIPv4 allowedIPv6 : String) : Except String String :=
  if allowedIPv4 = "" ∧ allowedIPv6 = "" then
    .error "at least one authorised IP address must be provided"
  else if appRole = "mock" then
    .ok (sanitizeForTag ("mock-wrapped-token-for-" ++ allowedIPv4 ++ "-and-" ++ allowedIPv6))
  else
    match vaultResult with
    | .error e => .error ("unable to write a secret with bound CIDRs: " ++ e)
    | .ok w => .ok w

/-- The transformation exactly as claim C8 words it: every individual
character outside the tag alphabet is replaced by one underscore, so the
output has the same length as the input. -/
def perCharSanitized (s : String) : String :=
  String.mk (s.data.map (fun c => if isAllowedTagChar c then c else '_'))

/-- The sanitization relation in the words of the amended claim C8: the
output is the input with every maximal nonempty run of characters outside
the tag alphabet replaced by a single underscore.  (`hmax` states the
maximality: the run is not followed by another disallowed character.) -/
inductive RunCollapsed : List Char → List Char → Prop where
  | nil : RunCollapsed [] []
  | allowed (c : Char) (t u : List Char) (hc : isAllowedTagChar c = true)
      (h : RunCollapsed t u) : RunCollapsed (c :: t) (c :: u)
  | run (pre t u : List Char) (hpre : pre ≠ [])
      (hall : ∀ c ∈ pre, isAllowedTagChar c = false)
      (hmax : ∀ c tl, t = c :: tl → isAllowedTagChar c = true)
      (h : RunCollapsed t u) : RunCollapsed (pre ++ t) ('_' :: u)

end DOPlugin

namespace DOPlugin

theorem lookupA_insertA_self {V : Type} (k : String) (v : V) (m : List (String × V)) :
    lookupA k (insertA k v m) = some v := by
  induction m with
  | nil => simp [insertA, lookupA]
  | cons kv rest ih =>
    obtain ⟨k1, v1⟩ := kv
    by_cases h : k1 = k
    · subst h; simp [insertA, lookupA]
    · simp [insertA, lookupA, h, ih]

theorem lookupA_insertA_ne {V : Type} {k1 k : String} (v : V) (m : List (String × V))
    (h : k1 ≠ k) : lookupA k1 (insertA k v m) = lookupA k1 m := by
  induction m with
  | nil => simp [insertA, lookupA, Ne.symm h]
  | cons kv rest ih =>
    obtain ⟨k2, v2⟩ := kv
    by_cases h2 : k2 = k
    · subst h2; simp [insertA, lookupA, Ne.symm h]
    · simp [insertA, lookupA, h2, ih]

theorem mem_insertA {V : Type} {p : String × V} {k : String} {v : V}
    {m : List (String × V)} (h : p ∈ insertA k v m) : p = (k, v) ∨ p ∈ m := by
  induction m with
  | nil => simpa [insertA] using h
  | cons kv rest ih =>
    obtain ⟨k2, v2⟩ := kv
    by_cases h2 : k2 = k
    · subst h2
      simp only [insertA, if_pos rfl] at h
      rcases List.mem_cons.1 h with heq | hm
      · exact Or.inl heq
      · exact Or.inr (List.mem_cons_of_mem _ hm)
    · simp only [insertA, if_neg h2] at h
      rcases List.mem_cons.1 h with heq | hm
      · exact Or.inr (heq ▸ List.mem_cons_self _ _)
      · rcases ih hm with heq | hm2
        · exact Or.inl heq
        · exact Or.inr (List.mem_cons_of_mem _ hm2)

theorem mem_keysOf_insertA {V : Type} {a k : String} {v : V} {m : List (String × V)}
    (h : a ∈ keysOf (insertA k v m)) : a = k ∨ a ∈ keysOf m := by
  obtain ⟨p, hp, rfl⟩ := List.mem_map.1 h
  rcases mem_insertA hp with heq | hm
  · exact Or.inl (by rw [heq])
  · exact Or.inr (List.mem_map_of_mem _ hm)

theorem nodup_keysOf_insertA {V : Type} (k : String) (v : V) (m : List (String × V))
    (h : (keysOf m).Nodup) : (keysOf (insertA k v m)).Nodup := by
  induction m with
  | nil => simp [insertA, keysOf]
  | cons kv rest ih =>
    obtain ⟨k1, v1⟩ := kv
    simp only [keysOf, List.map_cons, List.nodup_cons] at h
    by_cases hk : k1 = k
    · subst hk
      simpa [insertA, keysOf, List.nodup_cons] using h
    · simp only [insertA, if_neg hk, keysOf, List.map_cons, List.nodup_cons]
      refine ⟨fun hmem => ?_, ih h.2⟩
      rcases mem_keysOf_insertA hmem with heq | hm
      · exact hk heq
      · exact h.1 hm

theorem mem_keysOf_of_mem {V : Type} {k : String} {v : V} {m : List (String × V)}
    (h : (k, v) ∈ m) : k ∈ keysOf m :=
  List.mem_map_of_mem _ h

theorem lookupA_eq_some_of_mem {V : Type} {m : List (String × V)} {k : String} {v : V}
    (hnd : (keysOf m).Nodup) (hm : (k, v) ∈ m) : lookupA k m = some v := by
  induction m with
  | nil => cases hm
  | cons kv rest ih =>
    obtain ⟨k1, v1⟩ := kv
    simp only [keysOf, List.map_cons, List.nodup_cons] at hnd
    rcases List.mem_cons.1 hm with heq | hmem
    · obtain ⟨hk, hv⟩ := Prod.mk.injEq .. ▸ heq
      subst hk; subst hv
      simp [lookupA]
    · have hk : k1 ≠ k := by
        rintro rfl
        exact hnd.1 (mem_keysOf_of_mem hmem)
      simpa [lookupA, hk] using ih hnd.2 hmem

theorem lookupA_foldl_insertA_of_not_mem {V W : Type} (f : String × W → V)
    (addresses : List (String × W)) (pool : List (String × V)) (k : String)
    (hk : k ∉ keysOf addresses) :
    lookupA k (addresses.foldl (fun m kv => insertA kv.1 (f kv) m) pool) =
      lookupA k pool := by
  induction addresses generalizing pool with
  | nil => rfl
  | cons kv rest ih =>
    simp only [keysOf, List.map_cons, List.mem_cons, not_or] at hk
    rw [List.foldl_cons, ih _ (by simpa [keysOf] using hk.2),
      lookupA_insertA_ne _ _ hk.1]

theorem lookupA_foldl_insertA_of_mem {V W : Type} (f : String × W → V)
    (addresses : List (String × W)) (pool : List (String × V)) (k : String) (w : W)
    (hnd : (keysOf addresses).Nodup) (hm : (k, w) ∈ addresses) :
    lookupA k (addresses.foldl (fun m kv => insertA kv.1 (f kv) m) pool) =
      some (f (k, w)) := by
  induction addresses generalizing pool with
  | nil => cases hm
  | cons kv rest ih =>
    simp only [keysOf, List.map_cons, List.nodup_cons] at hnd
    rcases List.mem_cons.1 hm with heq | hmem
    · subst heq
      rw [List.foldl_cons,
        lookupA_foldl_insertA_of_not_mem f rest _ k (by simpa [keysOf] using hnd.1)]
      exact lookupA_insertA_self k (f (k, w)) pool
    · rw [List.foldl_cons]
      exact ih _ hnd.2 hmem

theorem mem_scanReservedIPs {pool : List (String × PrereservedIP)} {now : Int}
    {count : Nat} {entries : List ReservedIP} {init : List (String × ReservedIP)}
    {p : String × ReservedIP} (h : p ∈ scanReservedIPs pool now count entries init) :
    p ∈ init ∨ notPrereservedV4 pool now p.1 = true := by
  induction entries generalizing init with
  | nil => exact Or.inl h
  | cons r rest ih =>
    by_cases h1 : r.droplet = none
    · by_cases h2 : notPrereservedV4 pool now r.ip = true
      · by_cases h3 : (insertA r.ip r init).length = count
        · simp only [scanReservedIPs, h1, h2, if_true, h3, if_pos] at h
          rcases mem_insertA h with heq | hm
          · exact Or.inr (by rw [heq]; exact h2)
          · exact Or.inl hm
        · simp only [scanReservedIPs, h1, h2, if_true, h3, if_false, if_neg] at h
          rcases ih h with hm | hpred
          · rcases mem_insertA hm with heq | hm2
            · exact Or.inr (by rw [heq]; exact h2)
            · exact Or.inl hm2
          · exact Or.inr hpred
      · simp only [scanReservedIPs, h1, if_pos, h2, if_neg, Bool.not_eq_true] at h
        exact ih h
    · simp only [scanReservedIPs, h1, if_neg] at h
      exact ih h

theorem mem_scanReservedIPV6s {pool : List (String × PrereservedIPV6)} {now : Int}
    {count : Nat} {entries : List ReservedIPV6} {init : List (String × ReservedIPV6)}
    {p : String × ReservedIPV6} (h : p ∈ scanReservedIPV6s pool now count entries init) :
    p ∈ init ∨ notPrereservedV6 pool now p.1 = true := by
  induction entries generalizing init with
  | nil => exact Or.inl h
  | cons r rest ih =>
    by_cases h1 : r.droplet = none
    · by_cases h2 : notPrereservedV6 pool now r.ip = true
      · by_cases h3 : (insertA r.ip r init).length = count
        · simp only [scanReservedIPV6s, h1, h2, if_true, h3, if_pos] at h
          rcases mem_insertA h with heq | hm
          · exact Or.inr (by rw [heq]; exact h2)
          · exact Or.inl hm
        · simp only [scanReservedIPV6s, h1, h2, if_true, h3, if_false, if_neg] at h
          rcases ih h with hm | hpred
          · rcases mem_insertA hm with heq | hm2
            · exact Or.inr (by rw [heq]; exact h2)
            · exact Or.inl hm2
          · exact Or.inr hpred
      · simp only [scanReservedIPV6s, h1, if_pos, h2, if_neg, Bool.not_eq_true] at h
        exact ih h
    · simp only [scanReservedIPV6s, h1, if_neg] at h
      exact ih h

theorem nodup_keysOf_scanReservedIPs {pool : List (String × PrereservedIP)} {now : Int}
    {count : Nat} (entries : List ReservedIP) (init : List (String × ReservedIP))
    (hnd : (keysOf init).Nodup) :
    (keysOf (scanReservedIPs pool now count entries init)).Nodup := by
  induction entries generalizing init with
  | nil => exact hnd
  | cons r rest ih =>
    by_cases h1 : r.droplet = none
    · by_cases h2 : notPrereservedV4 pool now r.ip = true
      · by_cases h3 : (insertA r.ip r init).length = count
        · simpa only [scanReservedIPs, h1, h2, if_true, h3, if_pos] using
            nodup_keysOf_insertA r.ip r init hnd
        · simp only [scanReservedIPs, h1, h2, if_true, h3, if_false, if_neg]
          exact ih _ (nodup_keysOf_insertA r.ip r init hnd)
      · simp only [scanReservedIPs, h1, if_pos, h2, if_neg, Bool.not_eq_true]
        exact ih _ hnd
    · simp only [scanReservedIPs, h1, if_neg]
      exact ih _ hnd

theorem nodup_keysOf_scanReservedIPV6s {pool : List (String × PrereservedIPV6)} {now : Int}
    {count : Nat} (entries : List ReservedIPV6) (init : List (String × ReservedIPV6))
    (hnd : (keysOf init).Nodup) :
    (keysOf (scanReservedIPV6s pool now count entries init)).Nodup := by
  induction entries generalizing init with
  | nil => exact hnd
  | cons r rest ih =>
    by_cases h1 : r.droplet = none
    · by_cases h2 : notPrereservedV6 pool now r.ip = true
      · by_cases h3 : (insertA r.ip r init).length = count
        · simpa only [scanReservedIPV6s, h1, h2, if_true, h3, if_pos] using
            nodup_keysOf_insertA r.ip r init hnd
        · simp only [scanReservedIPV6s, h1, h2, if_true, h3, if_false, if_neg]
          exact ih _ (nodup_keysOf_insertA r.ip r init hnd)
      · simp only [scanReservedIPV6s, h1, if_pos, h2, if_neg, Bool.not_eq_true]
        exact ih _ hnd
    · simp only [scanReservedIPV6s, h1, if_neg]
      exact ih _ hnd

theorem createReservedIPs_ok_mem {count : Nat} {region : String} {cif : Bool}
    {creates : List (Except String ReservedIP)} {init addresses : List (String × ReservedIP)}
    {p : String × ReservedIP}
    (h : createReservedIPs count region cif creates init = some (.ok addresses))
    (hp : p ∈ addresses) :
    p ∈ init ∨ ∃ r, Except.ok r ∈ creates ∧ p.1 = r.ip := by
  induction creates generalizing init with
  | nil =>
    by_cases hlen : init.length = count
    · simp only [createReservedIPs, hlen, if_pos, Option.some.injEq, Except.ok.injEq] at h
      exact Or.inl (h ▸ hp)
    · cases cif <;> simp [createReservedIPs, hlen] at h
  | cons c rest ih =>
    by_cases hlen : init.length = count
    · cases c with
      | error e =>
        simp only [createReservedIPs, hlen, if_pos, Option.some.injEq, Except.ok.injEq] at h
        exact Or.inl (h ▸ hp)
      | ok r =>
        simp only [createReservedIPs, hlen, if_pos, Option.some.injEq, Except.ok.injEq] at h
        exact Or.inl (h ▸ hp)
    · cases cif with
      | false => cases c <;> simp [createReservedIPs, hlen] at h
      | true =>
        cases c with
        | error e => simp [createReservedIPs, hlen] at h
        | ok r =>
          simp only [createReservedIPs, hlen, if_false, if_true, if_neg, if_pos] at h
          rcases ih h with hin | ⟨r2, hr2, hip⟩
          · rcases mem_insertA hin with heq | him
            · exact Or.inr ⟨r, List.mem_cons_self _ _, by rw [heq]⟩
            · exact Or.inl him
          · exact Or.inr ⟨r2, List.mem_cons_of_mem _ hr2, hip⟩

theorem createReservedIPV6s_ok_mem {count : Nat} {region : String} {cif : Bool}
    {creates : List (Except String ReservedIPV6)} {init addresses : List (String × ReservedIPV6)}
    {p : String × ReservedIPV6}
    (h : createReservedIPV6s count region cif creates init = some (.ok addresses))
    (hp : p ∈ addresses) :
    p ∈ init ∨ ∃ r, Except.ok r ∈ creates ∧ p.1 = r.ip := by
  induction creates generalizing init with
  | nil =>
    by_cases hlen : init.length = count
    · simp only [createReservedIPV6s, hlen, if_pos, Option.some.injEq, Except.ok.injEq] at h
      exact Or.inl (h ▸ hp)
    · cases cif <;> simp [createReservedIPV6s, hlen] at h
  | cons c rest ih =>
    by_cases hlen : init.length = count
    · cases c with
      | error e =>
        simp only [createReservedIPV6s, hlen, if_pos, Option.some.injEq, Except.ok.injEq] at h
        exact Or.inl (h ▸ hp)
      | ok r =>
        simp only [createReservedIPV6s, hlen, if_pos, Option.some.injEq, Except.ok.injEq] at h
        exact Or.inl (h ▸ hp)
    · cases cif with
      | false => cases c <;> simp [createReservedIPV6s, hlen] at h
      | true =>
        cases c with
        | error e => simp [createReservedIPV6s, hlen] at h
        | ok r =>
          simp only [createReservedIPV6s, hlen, if_false, if_true, if_neg, if_pos] at h
          rcases ih h with hin | ⟨r2, hr2, hip⟩
          · rcases mem_insertA hin with heq | him
            · exact Or.inr ⟨r, List.mem_cons_self _ _, by rw [heq]⟩
            · exact Or.inl him
          · exact Or.inr ⟨r2, List.mem_cons_of_mem _ hr2, hip⟩

theorem createReservedIPs_ok_length {count : Nat} {region : String} {cif : Bool}
    {creates : List (Except String ReservedIP)} {init addresses : List (String × ReservedIP)}
    (h : createReservedIPs count region cif creates init = some (.ok addresses)) :
    addresses.length = count := by
  induction creates generalizing init with
  | nil =>
    by_cases hlen : init.length = count
    · simp only [createReservedIPs, hlen, if_pos, Option.some.injEq, Except.ok.injEq] at h
      rw [← h]; exact hlen
    · cases cif <;> simp [createReservedIPs, hlen] at h
  | cons c rest ih =>
    by_cases hlen : init.length = count
    · cases c with
      | error e =>
        simp only [createReservedIPs, hlen, if_pos, Option.some.injEq, Except.ok.injEq] at h
        rw [← h]; exact hlen
      | ok r =>
        simp only [createReservedIPs, hlen, if_pos, Option.some.injEq, Except.ok.injEq] at h
        rw [← h]; exact hlen
    · cases cif with
      | false => cases c <;> simp [createReservedIPs, hlen] at h
      | true =>
        cases c with
        | error e => simp [createReservedIPs, hlen] at h
        | ok r =>
          simp only [createReservedIPs, hlen, if_false, if_true, if_neg, if_pos] at h
          exact ih h

theorem createReservedIPV6s_ok_length {count : Nat} {region : String} {cif : Bool}
    {creates : List (Except String ReservedIPV6)} {init addresses : List (String × ReservedIPV6)}
    (h : createReservedIPV6s count region cif creates init = some (.ok addresses)) :
    addresses.length = count := by
  induction creates generalizing init with
  | nil =>
    by_cases hlen : init.length = count
    · simp only [createReservedIPV6s, hlen, if_pos, Option.some.injEq, Except.ok.injEq] at h
      rw [← h]; exact hlen
    · cases cif <;> simp [createReservedIPV6s, hlen] at h
  | cons c rest ih =>
    by_cases hlen : init.length = count
    · cases c with
      | error e =>
        simp only [createReservedIPV6s, hlen, if_pos, Option.some.injEq, Except.ok.injEq] at h
        rw [← h]; exact hlen
      | ok r =>
        simp only [createReservedIPV6s, hlen, if_pos, Option.some.injEq, Except.ok.injEq] at h
        rw [← h]; exact hlen
    · cases cif with
      | false => cases c <;> simp [createReservedIPV6s, hlen] at h
      | true =>
        cases c with
        | error e => simp [createReservedIPV6s, hlen] at h
        | ok r =>
          simp only [createReservedIPV6s, hlen, if_false, if_true, if_neg, if_pos] at h
          exact ih h

theorem createReservedIPs_ok_nodup {count : Nat} {region : String} {cif : Bool}
    {creates : List (Except String ReservedIP)} {init addresses : List (String × ReservedIP)}
    (hnd : (keysOf init).Nodup)
    (h : createReservedIPs count region cif creates init = some (.ok addresses)) :
    (keysOf addresses).Nodup := by
  induction creates generalizing init with
  | nil =>
    by_cases hlen : init.length = count
    · simp only [createReservedIPs, hlen, if_pos, Option.some.injEq, Except.ok.injEq] at h
      exact h ▸ hnd
    · cases cif <;> simp [createReservedIPs, hlen] at h
  | cons c rest ih =>
    by_cases hlen : init.length = count
    · cases c with
      | error e =>
        simp only [createReservedIPs, hlen, if_pos, Option.some.injEq, Except.ok.injEq] at h
        exact h ▸ hnd
      | ok r =>
        simp only [createReservedIPs, hlen, if_pos, Option.some.injEq, Except.ok.injEq] at h
        exact h ▸ hnd
    · cases cif with
      | false => cases c <;> simp [createReservedIPs, hlen] at h
      | true =>
        cases c with
        | error e => simp [createReservedIPs, hlen] at h
        | ok r =>
          simp only [createReservedIPs, hlen, if_false, if_true, if_neg, if_pos] at h
          exact ih (nodup_keysOf_insertA r.ip r init hnd) h

theorem createReservedIPV6s_ok_nodup {count : Nat} {region : String} {cif : Bool}
    {creates : List (Except String ReservedIPV6)} {init addresses : List (String × ReservedIPV6)}
    (hnd : (keysOf init).Nodup)
    (h : createReservedIPV6s count region cif creates init = some (.ok addresses)) :
    (keysOf addresses).Nodup := by
  induction creates generalizing init with
  | nil =>
    by_cases hlen : init.length = count
    · simp only [createReservedIPV6s, hlen, if_pos, Option.some.injEq, Except.ok.injEq] at h
      exact h ▸ hnd
    · cases cif <;> simp [createReservedIPV6s, hlen] at h
  | cons c rest ih =>
    by_cases hlen : init.length = count
    · cases c with
      | error e =>
        simp only [createReservedIPV6s, hlen, if_pos, Option.some.injEq, Except.ok.injEq] at h
        exact h ▸ hnd
      | ok r =>
        simp only [createReservedIPV6s, hlen, if_pos, Option.some.injEq, Except.ok.injEq] at h
        exact h ▸ hnd
    · cases cif with
      | false => cases c <;> simp [createReservedIPV6s, hlen] at h
      | true =>
        cases c with
        | error e => simp [createReservedIPV6s, hlen] at h
        | ok r =>
          simp only [createReservedIPV6s, hlen, if_false, if_true, if_neg, if_pos] at h
          exact ih (nodup_keysOf_insertA r.ip r init hnd) h

theorem PrereserveIPs_ok_inv {pool pool2 : List (String × PrereservedIP)} {now expiry : Int}
    {lr : Except String (List ReservedIP)} {creates : List (Except String ReservedIP)}
    {count : Nat} {region : String} {cif : Bool} {R : List String}
    (h : PrereserveIPs pool now lr creates count region cif expiry = some (.ok R, pool2)) :
    ∃ ips addresses,
      lr = .ok ips ∧
      createReservedIPs count region cif creates
        (scanReservedIPs pool now count ((buildReservedMapV4 ips).map (fun kv => kv.2)) []) =
        some (.ok addresses) ∧
      R = addresses.map (fun kv => kv.1) ∧
      pool2 = recordPrereservationsV4 now expiry addresses pool := by
  cases lr with
  | error e => simp [PrereserveIPs] at h
  | ok ips =>
    simp only [PrereserveIPs] at h
    cases hc : createReservedIPs count region cif creates
        (scanReservedIPs pool now count ((buildReservedMapV4 ips).map (fun kv => kv.2)) []) with
    | none => rw [hc] at h; simp at h
    | some res =>
      cases res with
      | error e2 => rw [hc] at h; simp at h
      | ok addresses =>
        rw [hc] at h
        simp only [Option.some.injEq, Prod.mk.injEq, Except.ok.injEq] at h
        exact ⟨ips, addresses, rfl, hc, h.1.symm, h.2.symm⟩

theorem PrereserveIPV6s_ok_inv {pool pool2 : List (String × PrereservedIPV6)} {now expiry : Int}
    {lr : Except String (List ReservedIPV6)} {creates : List (Except String ReservedIPV6)}
    {count : Nat} {region : String} {cif : Bool} {R : List String}
    (h : PrereserveIPV6s pool now lr creates count region cif expiry = some (.ok R, pool2)) :
    ∃ ips addresses,
      lr = .ok ips ∧
      createReservedIPV6s count region cif creates
        (scanReservedIPV6s pool now count ((buildReservedMapV6 ips).map (fun kv => kv.2)) []) =
        some (.ok addresses) ∧
      R = addresses.map (fun kv => kv.1) ∧
      pool2 = recordPrereservationsV6 now expiry addresses pool := by
  cases lr with
  | error e => simp [PrereserveIPV6s] at h
  | ok ips =>
    simp only [PrereserveIPV6s] at h
    cases hc : createReservedIPV6s count region cif creates
        (scanReservedIPV6s pool now count ((buildReservedMapV6 ips).map (fun kv => kv.2)) []) with
    | none => rw [hc] at h; simp at h
    | some res =>
      cases res with
      | error e2 => rw [hc] at h; simp at h
      | ok addresses =>
        rw [hc] at h
        simp only [Option.some.injEq, Prod.mk.injEq, Except.ok.injEq] at h
        exact ⟨ips, addresses, rfl, hc, h.1.symm, h.2.symm⟩

/-- C3: `AssignIPv4`, and symmetrically `AssignIPv6`, fails with the
not-prereserved error and leaves the pre-reservation map unchanged whenever
the address has no pre-reservation or an expired one; and whenever a
non-expired pre-reservation is found, the map after the call is the map with
that pre-reservation removed, whether the provider Assign action succeeded or
failed. -/
theorem C3_assign_consumes_prereservation :
    (∀ (pool : List (String × PrereservedIP)) (now : Int) (ar : Except String Unit)
        (d : Int) (ip : String),
      lookupA ip pool = none →
        AssignIPv4 pool now ar d ip =
          (.error "trying to assign a IPv4 address which was not prereserved", pool)) ∧
    (∀ (pool : List (String × PrereservedIP)) (now : Int) (ar : Except String Unit)
        (d : Int) (ip : String) (p : PrereservedIP),
      lookupA ip pool = some p → p.expiryTime < now →
        AssignIPv4 pool now ar d ip =
          (.error "trying to assign a IPv4 address which was not prereserved", pool)) ∧
    (∀ (pool : List (String × PrereservedIP)) (now : Int) (ar : Except String Unit)
        (d : Int) (ip : String) (p : PrereservedIP),
      lookupA ip pool = some p → ¬ p.expiryTime < now →
        (AssignIPv4 pool now ar d ip).2 = eraseA ip pool) ∧
    (∀ (pool : List (String × PrereservedIPV6)) (now : Int) (ar : Except String Unit)
        (d : Int) (ip : String),
      lookupA ip pool = none →
        AssignIPv6 pool now ar d ip =
          (.error ("trying to assign a IPv6 address (" ++ ip ++ ") which was not prereserved"),
            pool)) ∧
    (∀ (pool : List (String × PrereservedIPV6)) (now : Int) (ar : Except String Unit)
        (d : Int) (ip : String) (p : PrereservedIPV6),
      lookupA ip pool = some p → p.expiryTime < now →
        AssignIPv6 pool now ar d ip =
          (.error ("trying to assign a IPv6 address (" ++ ip ++ ") which was not prereserved"),
            pool)) ∧
    (∀ (pool : List (String × PrereservedIPV6)) (now : Int) (ar : Except String Unit)
        (d : Int) (ip : String) (p : PrereservedIPV6),
      lookupA ip pool = some p → ¬ p.expiryTime < now →
        (AssignIPv6 pool now ar d ip).2 = eraseA ip pool) := by
  refine ⟨?_, ?_, ?_, ?_, ?_, ?_⟩
  · intro pool now ar d ip h
    simp [AssignIPv4, h]
  · intro pool now ar d ip p h hexp
    simp [AssignIPv4, h, hexp]
  · intro pool now ar d ip p h hexp
    cases ar <;> simp [AssignIPv4, h, hexp]
  · intro pool now ar d ip h
    simp [AssignIPv6, h]
  · intro pool now ar d ip p h hexp
    simp [AssignIPv6, h, hexp]
  · intro pool now ar d ip p h hexp
    cases ar <;> simp [AssignIPv6, h, hexp]

/-- Witness for C3: concrete calls covering the absent, expired and valid
pre-reservation cases, in both address families. -/
theorem C3_assign_consumes_prereservation_witness :
    AssignIPv4 [] 0 (.ok ()) 1 "203.0.113.5" =
      (.error "trying to assign a IPv4 address which was not prereserved", []) ∧
    AssignIPv4 [("203.0.113.5", ⟨40, ⟨"203.0.113.5", none⟩⟩)] 50 (.ok ()) 1 "203.0.113.5" =
      (.error "trying to assign a IPv4 address which was not prereserved",
        [("203.0.113.5", ⟨40, ⟨"203.0.113.5", none⟩⟩)]) ∧
    (AssignIPv4 [("203.0.113.5", ⟨40, ⟨"203.0.113.5", none⟩⟩)] 30 (.error "boom") 1
        "203.0.113.5").2 =
      eraseA "203.0.113.5" [("203.0.113.5", ⟨40, ⟨"203.0.113.5", none⟩⟩)] ∧
    AssignIPv6 [] 0 (.ok ()) 1 "fe80::1" =
      (.error "trying to assign a IPv6 address (fe80::1) which was not prereserved", []) ∧
    AssignIPv6 [("fe80::1", ⟨40, ⟨"fe80::1", none⟩⟩)] 50 (.ok ()) 1 "fe80::1" =
      (.error "trying to assign a IPv6 address (fe80::1) which was not prereserved",
        [("fe80::1", ⟨40, ⟨"fe80::1", none⟩⟩)]) ∧
    (AssignIPv6 [("fe80::1", ⟨40, ⟨"fe80::1", none⟩⟩)] 30 (.error "boom") 1 "fe80::1").2 =
      eraseA "fe80::1" [("fe80::1", ⟨40, ⟨"fe80::1", none⟩⟩)] :=
  ⟨C3_assign_consumes_prereservation.1 [] 0 (.ok ()) 1 "203.0.113.5" (by decide),
    C3_assign_consumes_prereservation.2.1 _ 50 (.ok ()) 1 "203.0.113.5"
      ⟨40, ⟨"203.0.113.5", none⟩⟩ (by decide) (by decide),
    C3_assign_consumes_prereservation.2.2.1 _ 30 (.error "boom") 1 "203.0.113.5"
      ⟨40, ⟨"203.0.113.5", none⟩⟩ (by decide) (by decide),
    C3_assign_consumes_prereservation.2.2.2.1 [] 0 (.ok ()) 1 "fe80::1" (by decide),
    C3_assign_consumes_prereservation.2.2.2.2.1 _ 50 (.ok ()) 1 "fe80::1"
      ⟨40, ⟨"fe80::1", none⟩⟩ (by decide) (by decide),
    C3_assign_consumes_prereservation.2.2.2.2.2 _ 30 (.error "boom") 1 "fe80::1"
      ⟨40, ⟨"fe80::1", none⟩⟩ (by decide) (by decide)⟩

/-- C9: whenever `PrereserveIPs` (symmetrically `PrereserveIPV6s`) returns an
error — listing failure, creation failure or insufficient reserved
addresses — the in-memory pre-reservation map after the call equals the map
before the call: recording happens only after the full requested count has
been admitted. -/
theorem C9_prereserve_error_leaves_pool_unchanged :
    (∀ (pool pool2 : List (String × PrereservedIP)) (now expiry : Int)
        (lr : Except String (List ReservedIP)) (creates : List (Except String ReservedIP))
        (count : Nat) (region : String) (cif : Bool) (e : String),
      PrereserveIPs pool now lr creates count region cif expiry = some (.error e, pool2) →
        pool2 = pool) ∧
    (∀ (pool pool2 : List (String × PrereservedIPV6)) (now expiry : Int)
        (lr : Except String (List ReservedIPV6)) (creates : List (Except String ReservedIPV6))
        (count : Nat) (region : String) (cif : Bool) (e : String),
      PrereserveIPV6s pool now lr creates count region cif expiry = some (.error e, pool2) →
        pool2 = pool) := by
  constructor
  · intro pool pool2 now expiry lr creates count region cif e h
    cases lr with
    | error msg =>
      simp only [PrereserveIPs, Option.some.injEq, Prod.mk.injEq] at h
      exact h.2.symm
    | ok ips =>
      simp only [PrereserveIPs] at h
      cases hc : createReservedIPs count region cif creates
          (scanReservedIPs pool now count ((buildReservedMapV4 ips).map (fun kv => kv.2)) []) with
      | none => rw [hc] at h; simp at h
      | some res =>
        cases res with
        | error e2 =>
          rw [hc] at h
          simp only [Option.some.injEq, Prod.mk.injEq] at h
          exact h.2.symm
        | ok addresses => rw [hc] at h; simp at h
  · intro pool pool2 now expiry lr creates count region cif e h
    cases lr with
    | error msg =>
      simp only [PrereserveIPV6s, Option.some.injEq, Prod.mk.injEq] at h
      exact h.2.symm
    | ok ips =>
      simp only [PrereserveIPV6s] at h
      cases hc : createReservedIPV6s count region cif creates
          (scanReservedIPV6s pool now count ((buildReservedMapV6 ips).map (fun kv => kv.2)) []) with
      | none => rw [hc] at h; simp at h
      | some res =>
        cases res with
        | error e2 =>
          rw [hc] at h
          simp only [Option.some.injEq, Prod.mk.injEq] at h
          exact h.2.symm
        | ok addresses => rw [hc] at h; simp at h

/-- Witness for C9: a concrete failing call (insufficient reserved addresses,
creation not allowed) over a non-empty pool leaves the pool as it was. -/
theorem C9_prereserve_error_leaves_pool_unchanged_witness :
    PrereserveIPs [("198.51.100.7", ⟨40, ⟨"198.51.100.7", some 3⟩⟩)] 0 (.ok []) [] 1
        "mel1" false 5 =
      some (.error "insufficient reserved IPv4 addresses",
        [("198.51.100.7", ⟨40, ⟨"198.51.100.7", some 3⟩⟩)]) ∧
    ([("198.51.100.7", (⟨40, ⟨"198.51.100.7", some 3⟩⟩ : PrereservedIP))] =
      [("198.51.100.7", ⟨40, ⟨"198.51.100.7", some 3⟩⟩)]) :=
  ⟨rfl,
    C9_prereserve_error_leaves_pool_unchanged.1
      [("198.51.100.7", ⟨40, ⟨"198.51.100.7", some 3⟩⟩)]
      [("198.51.100.7", ⟨40, ⟨"198.51.100.7", some 3⟩⟩)] 0 5 (.ok []) [] 1 "mel1" false
      "insufficient reserved IPv4 addresses" rfl⟩

/-- C10: pre-reservation expiry is inclusive of its endpoint.  At the instant
where the clock equals the recorded expiry time, the pre-reservation still
counts: `AssignIPv4` (and `AssignIPv6`) accepts and consumes it, and the scan
of `PrereserveIPs` (and `PrereserveIPV6s`) still refuses to return the
address; only strictly after the expiry instant does the assignment fail as
not prereserved and does the scan treat the address as free, because the
comparison is `now.After(expiryTime)`. -/
theorem C10_expiry_boundary_inclusive :
    (∀ (pool : List (String × PrereservedIP)) (ip : String) (p : PrereservedIP)
        (ar : Except String Unit) (d : Int),
      lookupA ip pool = some p →
        AssignIPv4 pool p.expiryTime (.ok ()) d ip = (.ok (), eraseA ip pool) ∧
        (AssignIPv4 pool p.expiryTime ar d ip).2 = eraseA ip pool ∧
        notPrereservedV4 pool p.expiryTime ip = false ∧
        (∀ (count : Nat) (entries : List ReservedIP),
          ip ∉ keysOf (scanReservedIPs pool p.expiryTime count entries [])) ∧
        (∀ now : Int, p.expiryTime < now →
          AssignIPv4 pool now ar d ip =
            (.error "trying to assign a IPv4 address which was not prereserved", pool) ∧
          notPrereservedV4 pool now ip = true)) ∧
    (∀ (pool : List (String × PrereservedIPV6)) (ip : String) (p : PrereservedIPV6)
        (ar : Except String Unit) (d : Int),
      lookupA ip pool = some p →
        AssignIPv6 pool p.expiryTime (.ok ()) d ip = (.ok (), eraseA ip pool) ∧
        (AssignIPv6 pool p.expiryTime ar d ip).2 = eraseA ip pool ∧
        notPrereservedV6 pool p.expiryTime ip = false ∧
        (∀ (count : Nat) (entries : List ReservedIPV6),
          ip ∉ keysOf (scanReservedIPV6s pool p.expiryTime count entries [])) ∧
        (∀ now : Int, p.expiryTime < now →
          AssignIPv6 pool now ar d ip =
            (.error ("trying to assign a IPv6 address (" ++ ip ++ ") which was not prereserved"),
              pool) ∧
          notPrereservedV6 pool now ip = true)) := by
  constructor
  · intro pool ip p ar d h
    have hnp : notPrereservedV4 pool p.expiryTime ip = false := by
      simp [notPrereservedV4, h]
    refine ⟨by simp [AssignIPv4, h], ?_, hnp, ?_, ?_⟩
    · cases ar <;> simp [AssignIPv4, h]
    · intro count entries hmem
      obtain ⟨q, hq, hqeq⟩ := List.mem_map.1 hmem
      rcases mem_scanReservedIPs hq with h0 | hpred
      · cases h0
      · rw [hqeq, hnp] at hpred
        cases hpred
    · intro now hlt
      refine ⟨by simp [AssignIPv4, h, hlt], ?_⟩
      simp [notPrereservedV4, h, hlt]
  · intro pool ip p ar d h
    have hnp : notPrereservedV6 pool p.expiryTime ip = false := by
      simp [notPrereservedV6, h]
    refine ⟨by simp [AssignIPv6, h], ?_, hnp, ?_, ?_⟩
    · cases ar <;> simp [AssignIPv6, h]
    · intro count entries hmem
      obtain ⟨q, hq, hqeq⟩ := List.mem_map.1 hmem
      rcases mem_scanReservedIPV6s hq with h0 | hpred
      · cases h0
      · rw [hqeq, hnp] at hpred
        cases hpred
    · intro now hlt
      refine ⟨by simp [AssignIPv6, h, hlt], ?_⟩
      simp [notPrereservedV6, h, hlt]

/-- Witness for C10: a pre-reservation expiring at time 60 is still assignable
and still blocks the scan at time 60 exactly, and is expired at time 61. -/
theorem C10_expiry_boundary_inclusive_witness :
    AssignIPv4 [("203.0.113.9", ⟨60, ⟨"203.0.113.9", none⟩⟩)] 60 (.ok ()) 2 "203.0.113.9" =
      (.ok (), eraseA "203.0.113.9" [("203.0.113.9", ⟨60, ⟨"203.0.113.9", none⟩⟩)]) ∧
    notPrereservedV4 [("203.0.113.9", ⟨60, ⟨"203.0.113.9", none⟩⟩)] 60 "203.0.113.9" = false ∧
    "203.0.113.9" ∉ keysOf (scanReservedIPs
      [("203.0.113.9", ⟨60, ⟨"203.0.113.9", none⟩⟩)] 60 1 [⟨"203.0.113.9", none⟩] []) ∧
    AssignIPv4 [("203.0.113.9", ⟨60, ⟨"203.0.113.9", none⟩⟩)] 61 (.ok ()) 2 "203.0.113.9" =
      (.error "trying to assign a IPv4 address which was not prereserved",
        [("203.0.113.9", ⟨60, ⟨"203.0.113.9", none⟩⟩)]) ∧
    notPrereservedV6 [("fe80::9", ⟨60, ⟨"fe80::9", none⟩⟩)] 60 "fe80::9" = false := by
  have h4 := C10_expiry_boundary_inclusive.1
    [("203.0.113.9", ⟨60, ⟨"203.0.113.9", none⟩⟩)] "203.0.113.9"
    ⟨60, ⟨"203.0.113.9", none⟩⟩ (.ok ()) 2 rfl
  have h6 := C10_expiry_boundary_inclusive.2
    [("fe80::9", ⟨60, ⟨"fe80::9", none⟩⟩)] "fe80::9"
    ⟨60, ⟨"fe80::9", none⟩⟩ (.ok ()) 2 rfl
  exact ⟨h4.1, h4.2.2.1, h4.2.2.2.1 1 [⟨"203.0.113.9", none⟩],
    (h4.2.2.2.2 61 (by decide)).1, h6.2.2.1⟩

/-- C2: two immediately successive `PrereserveIPs` calls (symmetrically
`PrereserveIPV6s`), each asking for `k` addresses with creation allowed, with
no pre-reservation expiring in between (`now2 ≤ now1 + expiry`) and with the
provider creating only fresh addresses in the second call, return disjoint
address lists: no address of the first result appears in the second, and the
two results together are `2 k` pairwise-distinct addresses. -/
theorem C2_successive_prereserves_disjoint :
    (∀ (pool pool1 pool2 : List (String × PrereservedIP)) (now1 now2 expiry : Int)
        (k : Nat) (region : String) (list1 list2 : Except String (List ReservedIP))
        (creates1 creates2 : List (Except String ReservedIP)) (R1 R2 : List String),
      PrereserveIPs pool now1 list1 creates1 k region true expiry = some (.ok R1, pool1) →
      PrereserveIPs pool1 now2 list2 creates2 k region true expiry = some (.ok R2, pool2) →
      now2 ≤ now1 + expiry →
      (∀ r : ReservedIP, Except.ok r ∈ creates2 → r.ip ∉ R1) →
      R1.length = k ∧ R2.length = k ∧ (R1 ++ R2).Nodup) ∧
    (∀ (pool pool1 pool2 : List (String × PrereservedIPV6)) (now1 now2 expiry : Int)
        (k : Nat) (region : String) (list1 list2 : Except String (List ReservedIPV6))
        (creates1 creates2 : List (Except String ReservedIPV6)) (R1 R2 : List String),
      PrereserveIPV6s pool now1 list1 creates1 k region true expiry = some (.ok R1, pool1) →
      PrereserveIPV6s pool1 now2 list2 creates2 k region true expiry = some (.ok R2, pool2) →
      now2 ≤ now1 + expiry →
      (∀ r : ReservedIPV6, Except.ok r ∈ creates2 → r.ip ∉ R1) →
      R1.length = k ∧ R2.length = k ∧ (R1 ++ R2).Nodup) := by
  constructor
  · intro pool pool1 pool2 now1 now2 expiry k region list1 list2 creates1 creates2 R1 R2
      h1 h2 hexp hfresh
    obtain ⟨ips1, addrs1, hlr1, hcl1, hR1, hpool1⟩ := PrereserveIPs_ok_inv h1
    obtain ⟨ips2, addrs2, hlr2, hcl2, hR2, hpool2⟩ := PrereserveIPs_ok_inv h2
    have hnd1 : (keysOf addrs1).Nodup :=
      createReservedIPs_ok_nodup
        (nodup_keysOf_scanReservedIPs _ [] (by simp [keysOf])) hcl1
    have hnd2 : (keysOf addrs2).Nodup :=
      createReservedIPs_ok_nodup
        (nodup_keysOf_scanReservedIPs _ [] (by simp [keysOf])) hcl2
    have hlen1 : R1.length = k := by
      rw [hR1, List.length_map]
      exact createReservedIPs_ok_length hcl1
    have hlen2 : R2.length = k := by
      rw [hR2, List.length_map]
      exact createReservedIPs_ok_length hcl2
    have hdisj : ∀ a, a ∈ R1 → a ∉ R2 := by
      intro a ha1 ha2
      obtain ⟨q, hq, hqeq⟩ := List.mem_map.1 (hR2 ▸ ha2)
      obtain ⟨⟨wip, wval⟩, hw, hweq⟩ := List.mem_map.1 (hR1 ▸ ha1)
      have hlook : lookupA a pool1 = some ⟨now1 + expiry, wval⟩ := by
        rw [hpool1]
        have := lookupA_foldl_insertA_of_mem
          (fun kv => (⟨now1 + expiry, kv.2⟩ : PrereservedIP)) addrs1 pool wip wval hnd1 hw
        rw [← hweq]
        exact this
      rcases createReservedIPs_ok_mem hcl2 hq with hscan | ⟨r2, hrc, hip⟩
      · rcases mem_scanReservedIPs hscan with h0 | hpred
        · cases h0
        · rw [hqeq] at hpred
          unfold notPrereservedV4 at hpred
          rw [hlook] at hpred
          simp at hpred
          omega
      · exact hfresh r2 hrc ((hip ▸ hqeq) ▸ ha1)
    refine ⟨hlen1, hlen2, List.nodup_append.2 ⟨?_, ?_, hdisj⟩⟩
    · rw [hR1]; exact hnd1
    · rw [hR2]; exact hnd2
  · intro pool pool1 pool2 now1 now2 expiry k region list1 list2 creates1 creates2 R1 R2
      h1 h2 hexp hfresh
    obtain ⟨ips1, addrs1, hlr1, hcl1, hR1, hpool1⟩ := PrereserveIPV6s_ok_inv h1
    obtain ⟨ips2, addrs2, hlr2, hcl2, hR2, hpool2⟩ := PrereserveIPV6s_ok_inv h2
    have hnd1 : (keysOf addrs1).Nodup :=
      createReservedIPV6s_ok_nodup
        (nodup_keysOf_scanReservedIPV6s _ [] (by simp [keysOf])) hcl1
    have hnd2 : (keysOf addrs2).Nodup :=
      createReservedIPV6s_ok_nodup
        (nodup_keysOf_scanReservedIPV6s _ [] (by simp [keysOf])) hcl2
    have hlen1 : R1.length = k := by
      rw [hR1, List.length_map]
      exact createReservedIPV6s_ok_length hcl1
    have hlen2 : R2.length = k := by
      rw [hR2, List.length_map]
      exact createReservedIPV6s_ok_length hcl2
    have hdisj : ∀ a, a ∈ R1 → a ∉ R2 := by
      intro a ha1 ha2
      obtain ⟨q, hq, hqeq⟩ := List.mem_map.1 (hR2 ▸ ha2)
      obtain ⟨⟨wip, wval⟩, hw, hweq⟩ := List.mem_map.1 (hR1 ▸ ha1)
      have hlook : lookupA a pool1 = some ⟨now1 + expiry, wval⟩ := by
        rw [hpool1]
        have := lookupA_foldl_insertA_of_mem
          (fun kv => (⟨now1 + expiry, kv.2⟩ : PrereservedIPV6)) addrs1 pool wip wval hnd1 hw
        rw [← hweq]
        exact this
      rcases createReservedIPV6s_ok_mem hcl2 hq with hscan | ⟨r2, hrc, hip⟩
      · rcases mem_scanReservedIPV6s hscan with h0 | hpred
        · cases h0
        · rw [hqeq] at hpred
          unfold notPrereservedV6 at hpred
          rw [hlook] at hpred
          simp at hpred
          omega
      · exact hfresh r2 hrc ((hip ▸ hqeq) ▸ ha1)
    refine ⟨hlen1, hlen2, List.nodup_append.2 ⟨?_, ?_, hdisj⟩⟩
    · rw [hR1]; exact hnd1
    · rw [hR2]; exact hnd2

/-- Witness for C2: with an empty pool, a listing of one free address and a
creation returning one fresh address, the two successive calls return one
address each and the two addresses are distinct. -/
theorem C2_successive_prereserves_disjoint_witness :
    (["10.0.0.1"] : List String).length = 1 ∧
    (["10.0.0.2"] : List String).length = 1 ∧
    ((["10.0.0.1"] : List String) ++ ["10.0.0.2"]).Nodup :=
  C2_successive_prereserves_disjoint.1 [] [("10.0.0.1", ⟨100, ⟨"10.0.0.1", none⟩⟩)]
    [("10.0.0.1", ⟨100, ⟨"10.0.0.1", none⟩⟩), ("10.0.0.2", ⟨150, ⟨"10.0.0.2", none⟩⟩)]
    0 50 100 1 "mel1"
    (.ok [⟨"10.0.0.1", none⟩]) (.ok [⟨"10.0.0.1", none⟩])
    [] [.ok ⟨"10.0.0.2", none⟩]
    ["10.0.0.1"] ["10.0.0.2"]
    rfl rfl (by decide)
    (by
      intro r hr
      simp at hr
      subst hr
      decide)

/-- C1: evaluation of the scale-out user-data address selection at the
failing input of the code_bug.  With secure introduction configured,
`reserve_ipv4 = true` and `reserve_ipv6 = false`, the IPv6 pre-reservation
list stays empty, yet the task body indexes it because its guard tests
`reserveIPv4Addresses` instead of `reserveIPv6Addresses`, so task `i = 0`
faults with an out-of-range index (modelled as `none`).  The converse slip is
also shown: with only IPv6 reservation enabled the binder never receives the
reserved IPv6 address. -/
theorem C1_scaleout_indexes_empty_ipv6_list :
    scaleOutPrereservedLists true false ["192.0.2.1"] [] = (["192.0.2.1"], []) ∧
    scaleOutAllowedIPs true false ["192.0.2.1"] [] 0 = none ∧
    (∀ (reserveIPv6 : Bool) (v6s : List String) (i : Nat),
      scaleOutAllowedIPs false reserveIPv6 [] v6s i = some ("", "")) := by
  refine ⟨rfl, rfl, ?_⟩
  intro reserveIPv6 v6s i
  simp [scaleOutAllowedIPs]

/-- C7 (spec-modelled): the orphan sweeper never deletes a worker younger
than the grace period, whatever the whitelist says; never deletes a
whitelisted worker; and deletes every matching worker that is older than the
grace period and not whitelisted. -/
theorem C7_orphan_sweeper_grace_and_whitelist :
    ∀ (droplets : List Droplet) (templateName : String) (whitelist : List Nat)
      (now gracePeriod : Int) (d : Droplet),
      (now - d.created < gracePeriod →
        d ∉ deleteOrphanedDroplets droplets templateName whitelist now gracePeriod) ∧
      (whitelist.contains d.id = true →
        d ∉ deleteOrphanedDroplets droplets templateName whitelist now gracePeriod) ∧
      (d ∈ droplets → d.tags.contains templateName = true →
        gracePeriod < now - d.created → whitelist.contains d.id = false →
        d ∈ deleteOrphanedDroplets droplets templateName whitelist now gracePeriod) := by
  intro droplets templateName whitelist now gracePeriod d
  refine ⟨?_, ?_, ?_⟩
  · intro hage hmem
    have hpred := (List.mem_filter.1 hmem).2
    simp only [Bool.and_eq_true, decide_eq_true_eq] at hpred
    omega
  · intro hwl hmem
    have hpred := (List.mem_filter.1 hmem).2
    simp only [Bool.and_eq_true, Bool.not_eq_true'] at hpred
    rw [hpred.2] at hwl
    cases hwl
  · intro hmem htag hage hwl
    refine List.mem_filter.2 ⟨List.mem_filter.2 ⟨hmem, htag⟩, ?_⟩
    have hwl2 : d.id ∉ whitelist := by simpa using hwl
    simp [hage, hwl2]

/-- Witness for C7, mirroring the repository test: with a 600-second grace
period, a worker aged 1 second is kept even though it is not whitelisted, a
worker aged 3600 seconds but whitelisted is kept, and a worker aged 3600
seconds and not whitelisted is deleted. -/
theorem C7_orphan_sweeper_grace_and_whitelist_witness :
    (⟨1, ["banana"], 9999⟩ : Droplet) ∉
      deleteOrphanedDroplets
        [⟨1, ["banana"], 9999⟩, ⟨2, ["banana"], 6400⟩, ⟨3, ["banana"], 6400⟩]
        "banana" [2] 10000 600 ∧
    (⟨2, ["banana"], 6400⟩ : Droplet) ∉
      deleteOrphanedDroplets
        [⟨1, ["banana"], 9999⟩, ⟨2, ["banana"], 6400⟩, ⟨3, ["banana"], 6400⟩]
        "banana" [2] 10000 600 ∧
    (⟨3, ["banana"], 6400⟩ : Droplet) ∈
      deleteOrphanedDroplets
        [⟨1, ["banana"], 9999⟩, ⟨2, ["banana"], 6400⟩, ⟨3, ["banana"], 6400⟩]
        "banana" [2] 10000 600 :=
  ⟨(C7_orphan_sweeper_grace_and_whitelist
      [⟨1, ["banana"], 9999⟩, ⟨2, ["banana"], 6400⟩, ⟨3, ["banana"], 6400⟩]
      "banana" [2] 10000 600 ⟨1, ["banana"], 9999⟩).1 (by decide),
    (C7_orphan_sweeper_grace_and_whitelist
      [⟨1, ["banana"], 9999⟩, ⟨2, ["banana"], 6400⟩, ⟨3, ["banana"], 6400⟩]
      "banana" [2] 10000 600 ⟨2, ["banana"], 6400⟩).2.1 (by decide),
    (C7_orphan_sweeper_grace_and_whitelist
      [⟨1, ["banana"], 9999⟩, ⟨2, ["banana"], 6400⟩, ⟨3, ["banana"], 6400⟩]
      "banana" [2] 10000 600 ⟨3, ["banana"], 6400⟩).2.2 (by decide) (by decide)
      (by decide) (by decide)⟩

/-- C6: `PrependShellScriptToUserData` on every accepted format returns the
serialization of a cloud-config-archive whose first part has type
`text/x-shellscript` and content equal to the new script, followed by the
parse of the original: no further part for (whitespace-)empty input, one
part carrying the original for a bare shell script, and the parsed parts of
the original archive in order; input starting with `Content-Type:` fails as
unsupported MIME multipart. -/
theorem C6_prepend_shell_script_cases :
    ∀ (parseCCA : String → Except String (List CloudConfigPart)) (orig k : String),
      (goTrimSpace orig = "" →
        PrependShellScriptToUserData parseCCA orig k =
          .ok (CloudConfigArchive.render ⟨[⟨"text/x-shellscript", k⟩]⟩)) ∧
      (goStartsWith (goTrimSpace orig) "Content-Type:" = true →
        PrependShellScriptToUserData parseCCA orig k =
          .error "MIME multipart is not supported") ∧
      (goTrimSpace orig ≠ "" → goStartsWith (goTrimSpace orig) "Content-Type:" = false →
        goStartsWith (goTrimSpace orig) "#!" = true →
        PrependShellScriptToUserData parseCCA orig k =
          .ok (CloudConfigArchive.render
            ⟨[⟨"text/x-shellscript", k⟩, ⟨"text/x-shellscript", goTrimSpace orig⟩]⟩)) ∧
      (∀ ps, goTrimSpace orig ≠ "" → goStartsWith (goTrimSpace orig) "Content-Type:" = false →
        goStartsWith (goTrimSpace orig) "#!" = false →
        goStartsWith (goTrimSpace orig) "#cloud-config-archive\n" = true →
        parseCCA (splitN2after (goTrimSpace orig)) = .ok ps →
        PrependShellScriptToUserData parseCCA orig k =
          .ok (CloudConfigArchive.render ⟨⟨"text/x-shellscript", k⟩ :: ps⟩)) := by
  intro parseCCA orig k
  refine ⟨?_, ?_, ?_, ?_⟩
  · intro h1
    simp [PrependShellScriptToUserData, h1]
  · intro h2
    have hne : goTrimSpace orig ≠ "" := by
      intro heq
      rw [heq] at h2
      exact absurd h2 (by decide)
    simp [PrependShellScriptToUserData, hne, h2]
  · intro h1 h2 h3
    simp [PrependShellScriptToUserData, h1, h2, h3]
  · intro ps h1 h2 h3 h4 h5
    simp [PrependShellScriptToUserData, h1, h2, h3, h4, h5]

/-- Witness for C6: the four branches at concrete inputs — whitespace-only
input, a MIME multipart header, a bare shell script, and a two-line archive
whose parse is supplied by a concrete parser — and, for a script containing
two consecutive blank lines, the serialized output showing the whole blank
run collapsed into a single empty line, as the greedy `\s*` of the Go
serializer regex does. -/
theorem C6_prepend_shell_script_cases_witness :
    PrependShellScriptToUserData (fun bs => .ok [⟨"text/cloud-boothook", bs⟩]) "   "
        "#!/bin/sh\nhello" =
      .ok (CloudConfigArchive.render ⟨[⟨"text/x-shellscript", "#!/bin/sh\nhello"⟩]⟩) ∧
    PrependShellScriptToUserData (fun bs => .ok [⟨"text/cloud-boothook", bs⟩])
        "Content-Type: multipart/mixed" "#!/bin/sh\nhello" =
      .error "MIME multipart is not supported" ∧
    PrependShellScriptToUserData (fun bs => .ok [⟨"text/cloud-boothook", bs⟩])
        "#!/bin/sh\nshutdown -h 10\n" "#!/bin/sh\nhello" =
      .ok (CloudConfigArchive.render
        ⟨[⟨"text/x-shellscript", "#!/bin/sh\nhello"⟩,
          ⟨"text/x-shellscript", "#!/bin/sh\nshutdown -h 10"⟩]⟩) ∧
    PrependShellScriptToUserData (fun bs => .ok [⟨"text/cloud-boothook", bs⟩])
        "#cloud-config-archive\n- type: x" "#!/bin/sh\nhello" =
      .ok (CloudConfigArchive.render
        ⟨[⟨"text/x-shellscript", "#!/bin/sh\nhello"⟩,
          ⟨"text/cloud-boothook", "- type: x"⟩]⟩) ∧
    PrependShellScriptToUserData (fun bs => .ok [⟨"text/cloud-boothook", bs⟩]) ""
        "a\n\n\nb" =
      .ok (CloudConfigArchive.render ⟨[⟨"text/x-shellscript", "a\n\n\nb"⟩]⟩) ∧
    CloudConfigArchive.render ⟨[⟨"text/x-shellscript", "a\n\n\nb"⟩]⟩ =
      "#cloud-config-archive\n- type: text/x-shellscript\n  content: |\n    a\n\n    b\n" := by
  have h3 := (C6_prepend_shell_script_cases (fun bs => .ok [⟨"text/cloud-boothook", bs⟩])
    "#!/bin/sh\nshutdown -h 10\n" "#!/bin/sh\nhello").2.2.1 (by decide) (by decide)
    (by decide)
  have h4 := (C6_prepend_shell_script_cases (fun bs => .ok [⟨"text/cloud-boothook", bs⟩])
    "#cloud-config-archive\n- type: x" "#!/bin/sh\nhello").2.2.2
    [⟨"text/cloud-boothook", "- type: x"⟩] (by decide) (by decide) (by decide)
    (by decide) rfl
  exact ⟨(C6_prepend_shell_script_cases (fun bs => .ok [⟨"text/cloud-boothook", bs⟩]) "   "
      "#!/bin/sh\nhello").1 (by decide),
    (C6_prepend_shell_script_cases (fun bs => .ok [⟨"text/cloud-boothook", bs⟩])
      "Content-Type: multipart/mixed" "#!/bin/sh\nhello").2.1 (by decide),
    h3, h4,
    (C6_prepend_shell_script_cases (fun bs => .ok [⟨"text/cloud-boothook", bs⟩]) ""
      "a\n\n\nb").1 (by decide),
    rfl⟩

theorem length_dropWhile_le_chars (p : Char → Bool) (l : List Char) :
    (l.dropWhile p).length ≤ l.length := by
  induction l with
  | nil => simp
  | cons a tl ih =>
    by_cases h : p a = true
    · simp only [List.dropWhile, h, List.length_cons]
      omega
    · simp [List.dropWhile, h]

theorem dropWhile_head_false (p : Char → Bool) :
    ∀ (l : List Char) (x : Char) (tl : List Char), l.dropWhile p = x :: tl → p x = false := by
  intro l
  induction l with
  | nil => intro x tl h; simp [List.dropWhile] at h
  | cons a rest ih =>
    intro x tl h
    by_cases ha : p a = true
    · simp only [List.dropWhile, ha, cond_true] at h
      exact ih x tl h
    · rw [Bool.not_eq_true] at ha
      simp only [List.dropWhile, ha, cond_false] at h
      injection h with h1 h2
      rw [h1] at ha
      exact ha

theorem collapseRunsAux_true_eq (l : List Char) :
    collapseRunsAux true l =
      collapseRunsAux false (l.dropWhile (fun d => !isAllowedTagChar d)) := by
  induction l with
  | nil => rfl
  | cons a rest ih =>
    by_cases ha : isAllowedTagChar a = true
    · simp [collapseRunsAux, List.dropWhile, ha]
    · rw [Bool.not_eq_true] at ha
      simp only [collapseRunsAux, ha, if_false, Bool.false_eq_true, List.dropWhile,
        Bool.not_false, cond_true]
      exact ih

theorem runCollapsed_collapseRuns (l : List Char) : RunCollapsed l (collapseRuns l) := by
  have H : ∀ (n : Nat) (l : List Char), l.length ≤ n → RunCollapsed l (collapseRuns l) := by
    intro n
    induction n with
    | zero =>
      intro l hl
      have : l = [] := List.length_eq_zero.1 (Nat.le_zero.1 hl)
      rw [this]
      exact RunCollapsed.nil
    | succ n ih =>
      intro l hl
      match l with
      | [] => exact RunCollapsed.nil
      | c :: rest =>
        simp only [List.length_cons] at hl
        by_cases hc : isAllowedTagChar c = true
        · rw [show collapseRuns (c :: rest) = c :: collapseRuns rest from by
            simp [collapseRuns, collapseRunsAux, hc]]
          exact RunCollapsed.allowed c rest _ hc (ih rest (by omega))
        · rw [show collapseRuns (c :: rest) =
              '_' :: collapseRuns (rest.dropWhile (fun d => !isAllowedTagChar d)) from by
            simp [collapseRuns, collapseRunsAux, hc, collapseRunsAux_true_eq]]
          have hsplit : c :: rest =
              (c :: rest.takeWhile (fun d => !isAllowedTagChar d)) ++
                rest.dropWhile (fun d => !isAllowedTagChar d) := by
            rw [List.cons_append, List.takeWhile_append_dropWhile]
          rw [hsplit]
          refine RunCollapsed.run _ _ _ (by simp) ?_ ?_
            (ih (rest.dropWhile (fun d => !isAllowedTagChar d))
              (by
                have := length_dropWhile_le_chars (fun d => !isAllowedTagChar d) rest
                omega))
          · intro x hx
            rcases List.mem_cons.1 hx with heq | hx2
            · rw [heq]
              exact Bool.not_eq_true _ ▸ hc
            · have := List.mem_takeWhile_imp hx2
              simpa using this
          · intro x tl hx
            have := dropWhile_head_false (fun d => !isAllowedTagChar d) rest x tl hx
            simpa using this
  exact H l.length l le_rfl

/-- C8 counterexample: the sanitizer of the mock credential collapses a run
of two disallowed characters into one underscore, so the result differs from
the per-character replacement the claim describes (and is shorter than it). -/
theorem C8_counterexample_run_collapsed :
    GenerateSecretId (.ok "w") "mock" "1..2" "x" =
      .ok "mock-wrapped-token-for-1_2-and-x" ∧
    perCharSanitized "mock-wrapped-token-for-1..2-and-x" =
      "mock-wrapped-token-for-1__2-and-x" ∧
    GenerateSecretId (.ok "w") "mock" "1..2" "x" ≠
      .ok (perCharSanitized "mock-wrapped-token-for-1..2-and-x") :=
  ⟨rfl, rfl, fun h => absurd (Except.ok.inj h) (by decide)⟩

/-- C8 (amended): for every pair of addresses that are not both empty, the
mock credential issuer succeeds deterministically, returning the template
string `mock-wrapped-token-for-<ipv4>-and-<ipv6>` in which every maximal
nonempty run of characters outside `[A-Za-z0-9_\-:]` is replaced by a single
underscore. -/
theorem C8_mock_secret_id_run_collapsed :
    ∀ (vaultResult : Except String String) (ipv4 ipv6 : String),
      ¬(ipv4 = "" ∧ ipv6 = "") →
      GenerateSecretId vaultResult "mock" ipv4 ipv6 =
        .ok (sanitizeForTag ("mock-wrapped-token-for-" ++ ipv4 ++ "-and-" ++ ipv6)) ∧
      RunCollapsed ("mock-wrapped-token-for-" ++ ipv4 ++ "-and-" ++ ipv6).data
        (sanitizeForTag ("mock-wrapped-token-for-" ++ ipv4 ++ "-and-" ++ ipv6)).data := by
  intro vaultResult ipv4 ipv6 hne
  constructor
  · simp [GenerateSecretId, hne]
  · exact runCollapsed_collapseRuns _

/-- Witness for C8, the repository mock-vault test case: the addresses
`1.2.3.4` and `fe80::/10` yield
`mock-wrapped-token-for-1_2_3_4-and-fe80::_10`. -/
theorem C8_mock_secret_id_run_collapsed_witness :
    GenerateSecretId (.ok "w") "mock" "1.2.3.4" "fe80::/10" =
      .ok (sanitizeForTag "mock-wrapped-token-for-1.2.3.4-and-fe80::/10") ∧
    RunCollapsed ("mock-wrapped-token-for-1.2.3.4-and-fe80::/10").data
      (sanitizeForTag "mock-wrapped-token-for-1.2.3.4-and-fe80::/10").data ∧
    sanitizeForTag "mock-wrapped-token-for-1.2.3.4-and-fe80::/10" =
      "mock-wrapped-token-for-1_2_3_4-and-fe80::_10" :=
  ⟨(C8_mock_secret_id_run_collapsed (.ok "w") "1.2.3.4" "fe80::/10" (by simp)).1,
    (C8_mock_secret_id_run_collapsed (.ok "w") "1.2.3.4" "fe80::/10" (by simp)).2,
    rfl⟩

/-- C4: with a live context and a function that always fails, `retry` with
`retryAttempts = 1` returns the bare error `reached retry limit`: the last
error returned by `f` is NOT in the chain of the returned error, although the
spec (and the repository test `Test_retry`, which expects
`reached retry limit: an error` built with a wrapping verb) requires it to be.
This evaluates the embedded code at the failing input of the code_bug. -/
theorem C4_retry_limit_does_not_wrap_last_error :
    retry none (fun _ => some (.msg "an error")) (fun _ => none) 1 2 =
      some (some (.msg "reached retry limit")) ∧
    GoError.msg "an error" ∉ (GoError.msg "reached retry limit").chain ∧
    retry none (fun _ => some (.msg "an error")) (fun _ => none) 1 2 ≠
      some (some (.wrap "reached retry limit" (.msg "an error"))) := by
  decide

/-- C5: the rate limiter `(burst = 2, recharge = 5 s, start full)` created at
time 0 serves two `Consume` calls at once, blocks the third until time 5,
serves the fourth (issued at time 13) at once and blocks the fifth until
time 15; and whenever a `Consume` would block, the same call with the context
cancelled during the wait returns `cancelled` without consuming a token: its
post state keeps the recharged token count and does not advance `nextCheck`
past the awaited instant. -/
theorem C5_rate_limiter_sequencing :
    rlC1.1 = ConsumeOutcome.immediate ∧
    rlC2.1 = ConsumeOutcome.immediate ∧
    rlC3.1 = ConsumeOutcome.waitedUntil 5 ∧
    rlC4.1 = ConsumeOutcome.immediate ∧
    rlC5.1 = ConsumeOutcome.waitedUntil 15 ∧
    ∀ (r : RateLimiter) (now t : Int),
      (r.Consume now false).1 = ConsumeOutcome.waitedUntil t →
      r.Consume now true =
        (ConsumeOutcome.cancelled, { (r.Consume now false).2 with nextCheck := t }) := by
  refine ⟨by decide, by decide, by decide, by decide, by decide, ?_⟩
  intro r now t h
  by_cases h0 : 0 < (rechargeAux r.burst r.rechargePeriod now (r.burst + 1) r.current r.nextCheck).1
  · simp [RateLimiter.Consume, h0] at h
  · simp [RateLimiter.Consume, h0] at h ⊢
    simp [← h]

/-- Witness for C5: the third call of the scenario blocks until time 5, and
the cancelled variant of that call returns without consuming a token. -/
theorem C5_rate_limiter_sequencing_witness :
    (rlC2.2.Consume 0 false).1 = ConsumeOutcome.waitedUntil 5 ∧
    rlC2.2.Consume 0 true =
      (ConsumeOutcome.cancelled, { (rlC2.2.Consume 0 false).2 with nextCheck := 5 }) :=
  ⟨by decide, C5_rate_limiter_sequencing.2.2.2.2.2 rlC2.2 0 5 (by decide)⟩

end DOPlugin
